import Mathlib

/-!
Verification of the design-tool repository (browser-based 2D drawing tool).

Shallow embedding conventions:
* JavaScript numbers are modelled as exact rationals (ℚ).  The source parses
  its numeric payloads with parseFloat from strings; we model the parsed
  values directly as ℚ fields, with Option for the nullable fields.
* The geometry functions come from src/scripts/design-tool/design-tool.ts,
  the state store from the Pinia store module (useDesignToolStore).
* localStorage is modelled as an `Option GraphicData` (the parsed content of
  the key 'design-tool-data'); JSON.stringify/JSON.parse round-trips the
  stored record, so saving is modelled as replacing that content.
-/

namespace DesignTool

/-- Geometry record of design-tool.ts (interface GeometryData).  The source
stores the coordinates as strings and parses them with parseFloat; the parsed
values are modelled directly.  `r`, `startAngle`, `endAngle`, `x`, `y` are the
nullable arc fields (radius, angular range, centre). -/
structure GeometryData where
  sx : ℚ
  sy : ℚ
  ex : ℚ
  ey : ℚ
  r : Option ℚ := none
  startAngle : Option ℚ := none
  endAngle : Option ℚ := none
  x : Option ℚ := none
  y : Option ℚ := none
deriving DecidableEq

/-- Library blasting part (interface BlastingPart): a named list of geometry
segments. -/
structure BlastingPart where
  partName : String
  parts : List GeometryData
deriving DecidableEq

/-- Imported outline payload (interface TestData): the dig lines and the
library blasting parts.  The store's initialOutline holds the same two
lists. -/
structure TestData where
  digLines : List GeometryData
  blastingDesignLibraryParts : List BlastingPart
deriving DecidableEq

/-- Truncation toward zero, the rounding JavaScript's `%` operator uses. -/
def jsTrunc (x : ℚ) : ℤ :=
  if 0 ≤ x then ⌊x⌋ else ⌈x⌉

/-- JavaScript remainder `a % b` (sign follows the dividend). -/
def jsMod (a b : ℚ) : ℚ :=
  a - b * (jsTrunc (a / b) : ℚ)

/-- Angle normalisation of angleInRange: `((angle % 360) + 360) % 360`. -/
def normalizeAngle (a : ℚ) : ℚ :=
  jsMod (jsMod a 360 + 360) 360

/-- angleInRange from design-tool.ts: whether a target angle lies in the arc's
angular range, with wrap-around across 0 degrees. -/
def angleInRange (targetAngle startAngle endAngle : ℚ) : Bool :=
  let target := normalizeAngle targetAngle
  let start := normalizeAngle startAngle
  let stop := normalizeAngle endAngle
  if start ≤ stop then decide (start ≤ target) && decide (target ≤ stop)
  else decide (start ≤ target) || decide (target ≤ stop)

/-- Exact cosine at the only angles calculateBounds evaluates (0, 90, 180,
270 degrees); the source computes Math.cos(angle * PI / 180). -/
def cosDeg (a : ℚ) : ℚ :=
  if a = 0 then 1 else if a = 90 then 0 else if a = 180 then -1 else 0

/-- Exact sine at the only angles calculateBounds evaluates (0, 90, 180,
270 degrees); the source computes Math.sin(angle * PI / 180). -/
def sinDeg (a : ℚ) : ℚ :=
  if a = 0 then 0 else if a = 90 then 1 else if a = 180 then 0 else -1

/-- Arc extreme points considered by calculateBounds: for an arc segment
(r, startAngle and endAngle all present) the points of the circle at each of
0, 90, 180, 270 degrees whose angle lies in the arc's range; the centre
defaults to 0 when absent (`parseFloat(geometry.x || "0")`). -/
def arcExtremePoints (g : GeometryData) : List (ℚ × ℚ) :=
  match g.r, g.startAngle, g.endAngle with
  | some radius, some sa, some ea =>
    let centerX := g.x.getD 0
    let centerY := g.y.getD 0
    (([0, 90, 180, 270] : List ℚ).filter (fun a => angleInRange a sa ea)).map
      (fun a => (centerX + radius * cosDeg a, centerY + radius * sinDeg a))
  | _, _, _ => []

/-- Candidate points one geometry segment contributes to the bounding box:
its start point, its end point, and (for arcs) the in-range extreme points. -/
def geomPoints (g : GeometryData) : List (ℚ × ℚ) :=
  [(g.sx, g.sy), (g.ex, g.ey)] ++ arcExtremePoints g

/-- Candidate points of a list of geometry segments, in source order. -/
def digPoints : List GeometryData → List (ℚ × ℚ)
  | [] => []
  | g :: gs => geomPoints g ++ digPoints gs

/-- All geometry segments of a list of blasting parts, in source order. -/
def partsGeoms : List BlastingPart → List GeometryData
  | [] => []
  | p :: ps => p.parts ++ partsGeoms ps

/-- Every candidate point of the whole imported outline: the dig lines and
the library blasting parts. -/
def outlinePoints (data : TestData) : List (ℚ × ℚ) :=
  digPoints data.digLines ++ digPoints (partsGeoms data.blastingDesignLibraryParts)

/-- Bounding box record returned by calculateBounds. -/
structure Bounds where
  minX : ℚ
  maxX : ℚ
  minY : ℚ
  maxY : ℚ
deriving DecidableEq

/-- One accumulation step of calculateBounds: extend the running min/max with
one candidate point. -/
def extendBounds (b : Bounds) (p : ℚ × ℚ) : Bounds :=
  ⟨min b.minX p.1, max b.maxX p.1, min b.minY p.2, max b.maxY p.2⟩

/-- Fold of extendBounds over a point list.  The source starts from
minX = Infinity, maxX = -Infinity (and likewise for Y) and updates through
every point; with at least one point this equals folding from the first
point's coordinates.  The empty-geometry case (where the source would return
infinite bounds) is modelled as none. -/
def boundsOfPoints : List (ℚ × ℚ) → Option Bounds
  | [] => none
  | p :: ps => some (ps.foldl extendBounds ⟨p.1, p.1, p.2, p.2⟩)

/-- calculateBounds from design-tool.ts.  Note that the source sets
`allGeometries = data.digLines`: only the dig lines are processed, the
blasting parts are not. -/
def calculateBounds (data : TestData) : Option Bounds :=
  boundsOfPoints (digPoints data.digLines)

/-- A bounding box covers a point. -/
def coversPoint (b : Bounds) (p : ℚ × ℚ) : Prop :=
  b.minX ≤ p.1 ∧ p.1 ≤ b.maxX ∧ b.minY ≤ p.2 ∧ p.2 ≤ b.maxY

instance (b : Bounds) (p : ℚ × ℚ) : Decidable (coversPoint b p) := by
  unfold coversPoint; infer_instance

/-- Fixed margins of the drawing surface: `margin = { top: 20, right: 20,
bottom: 20, left: 20 }`. -/
structure MarginSpec where
  top : ℚ
  right : ℚ
  bottom : ℚ
  left : ℚ

/-- The margin constant of the DesignTool class. -/
def margin : MarginSpec := ⟨20, 20, 20, 20⟩

/-- A d3 linear scale, kept as its defining data: domain endpoints `d0, d1`
and range endpoints `r0, r1`. -/
structure LinearScale where
  d0 : ℚ
  d1 : ℚ
  r0 : ℚ
  r1 : ℚ
deriving DecidableEq

/-- Pixels the scale assigns to one data unit (signed; negative for the
screen-inverted y scale). -/
def LinearScale.pixelsPerUnit (s : LinearScale) : ℚ :=
  (s.r1 - s.r0) / (s.d1 - s.d0)

/-- The two scales and the base unit set up by setupScales. -/
structure Scales where
  xScale : LinearScale
  yScale : LinearScale
  baseUnitPixels : ℚ
deriving DecidableEq

/-- setupScales from design-tool.ts: the y domain is fixed to [-10, 10]
(20 units) over the effective height, baseUnitPixels = effectiveHeight / 20,
and the x domain is derived from the effective width at the same pixels per
unit, centred on 0. -/
def setupScales (width height : ℚ) : Scales :=
  let effectiveWidth := width - margin.left - margin.right
  let effectiveHeight := height - margin.top - margin.bottom
  let yRange : ℚ := 20
  let baseUnitPixels := effectiveHeight / yRange
  let xRange := effectiveWidth / baseUnitPixels
  { xScale := ⟨-xRange / 2, xRange / 2, margin.left, width - margin.right⟩,
    yScale := ⟨-10, 10, height - margin.bottom, margin.top⟩,
    baseUnitPixels := baseUnitPixels }

/-- A d3 zoom transform: point p maps to k * p + (tx, ty). -/
structure ZoomTransform where
  k : ℚ
  tx : ℚ
  ty : ℚ
deriving DecidableEq

/-- d3 `transform.translate(x, y)`. -/
def ZoomTransform.translate (t : ZoomTransform) (x y : ℚ) : ZoomTransform :=
  ⟨t.k, t.tx + t.k * x, t.ty + t.k * y⟩

/-- d3 `transform.scale(k)`. -/
def ZoomTransform.scale (t : ZoomTransform) (k : ℚ) : ZoomTransform :=
  ⟨t.k * k, t.tx, t.ty⟩

/-- d3 `zoomIdentity`. -/
def zoomIdentity : ZoomTransform := ⟨1, 0, 0⟩

/-- fitToView from design-tool.ts: frame the imported data.  Computes the
bounding box, returns without any transform when its width or height is zero,
and otherwise builds the cached-and-applied initial transform whose scale is
targetHeight / (boundsHeight * baseUnitPixels) clamped into [1/3, 3], centred
on the effective drawing area.  The none case of calculateBounds (no geometry
at all, infinite bounds in the source) is not claimed and modelled as no
transform. -/
def fitToView (width height : ℚ) (data : TestData) : Option ZoomTransform :=
  match calculateBounds data with
  | none => none
  | some bounds =>
    let boundsWidth := bounds.maxX - bounds.minX
    let boundsHeight := bounds.maxY - bounds.minY
    if boundsWidth = 0 ∨ boundsHeight = 0 then none
    else
      let effectiveHeight := height - margin.top - margin.bottom
      let targetHeight := effectiveHeight * 2 / 3
      let scale := targetHeight / (boundsHeight * (setupScales width height).baseUnitPixels)
      let clampedScale := max (1 / 3) (min 3 scale)
      let effectiveCenterX := (margin.left + (width - margin.right)) / 2
      let effectiveCenterY := (margin.top + (height - margin.bottom)) / 2
      some (((zoomIdentity.translate effectiveCenterX effectiveCenterY).scale
        clampedScale).translate (-effectiveCenterX) (-effectiveCenterY * 2 / 3))

/-- Major/minor tick spacing pair returned by calculateOptimalTickSpacing. -/
structure TickSpacing where
  major : ℚ
  minor : ℚ
deriving DecidableEq

/-- calculateOptimalTickSpacing from design-tool.ts: tick spacing chosen by
zoom-scale bands (boundaries 2.5, 1.5, 1, 0.5). -/
def calculateOptimalTickSpacing (zoomScale : ℚ) : TickSpacing :=
  if 5 / 2 ≤ zoomScale then ⟨1, 1 / 5⟩
  else if 3 / 2 ≤ zoomScale then ⟨1, 1 / 2⟩
  else if 1 ≤ zoomScale then ⟨2, 1 / 2⟩
  else if 1 / 2 ≤ zoomScale then ⟨5, 1⟩
  else ⟨10, 2⟩

/-- JavaScript Math.round: round half toward positive infinity. -/
def jsRound (x : ℚ) : ℤ := ⌊x + 1 / 2⌋

/-- The per-tick rounding of generateTicks:
`Math.round(i * 100) / 100` (keep two decimal places). -/
def roundTo2 (x : ℚ) : ℚ := (jsRound (x * 100) : ℚ) / 100

/-- generateTicks from design-tool.ts.  The source runs
`for (let i = start; i <= end; i += step)` with start = ceil(lo/step)*step and
end = floor(hi/step)*step, pushing Math.round(i * 100) / 100 each iteration.
In exact rational arithmetic the i-th iterate is start + i*step and, for
step > 0, the loop body runs floor((end - start)/step) + 1 times when
start <= end and 0 times otherwise, which is how the loop is rendered here. -/
def generateTicks (lo hi step : ℚ) : List ℚ :=
  let start : ℚ := (⌈lo / step⌉ : ℚ) * step
  let stop : ℚ := (⌊hi / step⌋ : ℚ) * step
  let count : ℕ := if start ≤ stop then (⌊(stop - start) / step⌋ + 1).toNat else 0
  (List.range count).map (fun n : ℕ => roundTo2 (start + (n : ℚ) * step))

/-- Specification-side list (from the claim's words, for comparison with
generateTicks): the multiples of step that lie within [lo, hi], in increasing
order, not rounded. -/
def specMultiples (lo hi step : ℚ) : List ℚ :=
  (List.range (⌊hi / step⌋ - ⌈lo / step⌉ + 1).toNat).map
    (fun n : ℕ => ((⌈lo / step⌉ + (n : ℤ) : ℤ) : ℚ) * step)

/-- Tool enumeration of the store (const ToolType: select, point, line,
circle, rectangle — a string enum in the source). -/
inductive ToolType where
  | select : ToolType
  | point : ToolType
  | line : ToolType
  | circle : ToolType
  | rectangle : ToolType
deriving DecidableEq

/-- Optional style record of a graphic element. -/
structure Style where
  stroke : Option String := none
  strokeWidth : Option ℚ := none
  fill : Option String := none
deriving DecidableEq

/-- A user-drawn graphic element.  The source's GraphicElement is a union of
point / line / circle / rectangle records that all share id, type, x, y; the
variant-specific fields (x2, y2, radius, width, height) are optional keys of
the underlying JavaScript object, which is what updateElement's
Object.assign operates on, so the element is modelled as one record with
optional fields. -/
structure GraphicElement where
  id : String
  type : String
  x : ℚ
  y : ℚ
  x2 : Option ℚ := none
  y2 : Option ℚ := none
  radius : Option ℚ := none
  width : Option ℚ := none
  height : Option ℚ := none
  style : Option Style := none
deriving DecidableEq

/-- A Partial GraphicElement: the updates record passed to updateElement;
none means the key is absent. -/
structure ElementUpdates where
  id : Option String := none
  type : Option String := none
  x : Option ℚ := none
  y : Option ℚ := none
  x2 : Option ℚ := none
  y2 : Option ℚ := none
  radius : Option ℚ := none
  width : Option ℚ := none
  height : Option ℚ := none
  style : Option Style := none
deriving DecidableEq

/-- Key merge of Object.assign for an optional field: a present update key
overwrites, an absent one keeps the old value. -/
def mergeField {α : Type} (u old : Option α) : Option α :=
  match u with
  | some v => some v
  | none => old

/-- Object.assign(element, updates) of updateElement. -/
def applyUpdates (e : GraphicElement) (u : ElementUpdates) : GraphicElement :=
  { id := u.id.getD e.id,
    type := u.type.getD e.type,
    x := u.x.getD e.x,
    y := u.y.getD e.y,
    x2 := mergeField u.x2 e.x2,
    y2 := mergeField u.y2 e.y2,
    radius := mergeField u.radius e.radius,
    width := mergeField u.width e.width,
    height := mergeField u.height e.height,
    style := mergeField u.style e.style }

/-- Axis configuration held in the drawing data; `style` is an any-typed
object (only ever `{}` in this repository), modelled as an association
list. -/
structure AxisConfig where
  visible : Bool
  style : List (String × String) := []
deriving DecidableEq

/-- GraphicData of the store: axis configuration, the imported initial
outline, the user-drawn elements and the selected ids. -/
structure GraphicData where
  axis : AxisConfig
  initialOutline : TestData
  userElements : List GraphicElement
  selectedIds : List String
deriving DecidableEq

/-- Pinia store state: current tool, drawing flag and the drawing data. -/
structure StoreState where
  currentTool : ToolType
  isDrawing : Bool
  data : GraphicData
deriving DecidableEq

/-- The store together with the browser's localStorage content under the key
'design-tool-data' (none: key absent). -/
structure Sys where
  store : StoreState
  storage : Option GraphicData
deriving DecidableEq

/-- What reading and parsing localStorage can yield for loadPersistedData:
the access or JSON.parse threw, the item is absent, or a parsed object whose
four expected fields may each be missing. -/
structure ParsedData where
  axis : Option AxisConfig := none
  initialOutline : Option TestData := none
  userElements : Option (List GraphicElement) := none
  selectedIds : Option (List String) := none

inductive StorageRead where
  | failure : StorageRead
  | absent : StorageRead
  | parsed : ParsedData → StorageRead

/-- The default GraphicData loadPersistedData falls back to. -/
def defaultGraphicData : GraphicData :=
  { axis := { visible := true, style := [] },
    initialOutline := { digLines := [], blastingDesignLibraryParts := [] },
    userElements := [],
    selectedIds := [] }

/-- loadPersistedData from the store module: default data on a thrown access
or parse error and on an absent item; per-field defaults (via `||`) for the
fields of a parsed object.  Total by construction: no exception escapes. -/
def loadPersistedData : StorageRead → GraphicData
  | .failure => defaultGraphicData
  | .absent => defaultGraphicData
  | .parsed p =>
    { axis := p.axis.getD { visible := true, style := [] },
      initialOutline := p.initialOutline.getD { digLines := [], blastingDesignLibraryParts := [] },
      userElements := p.userElements.getD [],
      selectedIds := p.selectedIds.getD [] }

/-- saveToLocalStorage from the store module: on success the stored content
becomes the saved data; a thrown write error is caught and leaves the stored
content unchanged (total: no exception escapes). -/
def saveToLocalStorage (d : GraphicData) (writeOk : Bool) (st : Option GraphicData) : Option GraphicData :=
  if writeOk then some d else st

/-- findIndex followed by splice(index, 1): drop the first list entry that
satisfies the test, keep the list unchanged when none does. -/
def spliceFirst {α : Type} (p : α → Bool) : List α → List α
  | [] => []
  | a :: as => if p a then as else a :: spliceFirst p as

/-- find followed by an in-place mutation: rewrite the first list entry that
satisfies the test. -/
def updateFirst {α : Type} (p : α → Bool) (f : α → α) : List α → List α
  | [] => []
  | a :: as => if p a then f a :: as else a :: updateFirst p f as

/-- Helper: replace the drawing data of the store. -/
def setData (s : Sys) (d : GraphicData) : Sys :=
  { s with store := { s.store with data := d } }

/-- Store action saveData: persist the current data.  The action-level claims
speak about the saved object, so the write is taken to succeed here; a failed
write is covered by saveToLocalStorage itself. -/
def saveData (s : Sys) : Sys :=
  { s with storage := saveToLocalStorage s.store.data true s.storage }

/-- Store action setCurrentTool: set the tool, stop drawing, and clear the
selection when switching to the select tool. -/
def setCurrentTool (tool : ToolType) (s : Sys) : Sys :=
  let s1 := { s with store := { s.store with currentTool := tool, isDrawing := false } }
  if tool = ToolType.select then setData s1 { s1.store.data with selectedIds := [] }
  else s1

/-- Store action toggleTool: back to select when the tool is already active. -/
def toggleTool (tool : ToolType) (s : Sys) : Sys :=
  if s.store.currentTool = tool then setCurrentTool ToolType.select s
  else setCurrentTool tool s

/-- Store action setDrawing. -/
def setDrawing (b : Bool) (s : Sys) : Sys :=
  { s with store := { s.store with isDrawing := b } }

/-- Store action addElement: push the element and save. -/
def addElement (element : GraphicElement) (s : Sys) : Sys :=
  saveData (setData s { s.store.data with userElements := s.store.data.userElements ++ [element] })

/-- Store action removeFromSelection: indexOf + splice of the id. -/
def removeFromSelection (id : String) (s : Sys) : Sys :=
  setData s { s.store.data with selectedIds := spliceFirst (fun x => x == id) s.store.data.selectedIds }

/-- Store action removeElement: findIndex + splice of the element, removal
from the selection, then save. -/
def removeElement (id : String) (s : Sys) : Sys :=
  let s1 := setData s { s.store.data with userElements := spliceFirst (fun el => el.id == id) s.store.data.userElements }
  saveData (removeFromSelection id s1)

/-- Store action updateElement: Object.assign onto the first element with the
id, then save; nothing happens when no element has the id. -/
def updateElement (id : String) (updates : ElementUpdates) (s : Sys) : Sys :=
  if s.store.data.userElements.any (fun el => el.id == id) then
    saveData (setData s { s.store.data with
      userElements := updateFirst (fun el => el.id == id) (fun el => applyUpdates el updates) s.store.data.userElements })
  else s

/-- Store action selectElement: push the id unless already selected. -/
def selectElement (id : String) (s : Sys) : Sys :=
  if s.store.data.selectedIds.contains id then s
  else setData s { s.store.data with selectedIds := s.store.data.selectedIds ++ [id] }

/-- Store action clearSelection. -/
def clearSelection (s : Sys) : Sys :=
  setData s { s.store.data with selectedIds := [] }

/-- Store action setInitialOutline. -/
def setInitialOutline (outline : TestData) (s : Sys) : Sys :=
  setData s { s.store.data with initialOutline := outline }

/-- Store action clearUserElements: drop all user elements and the selection,
then save. -/
def clearUserElements (s : Sys) : Sys :=
  saveData (setData s { s.store.data with userElements := [], selectedIds := [] })

/-- Store action loadData: re-read the persisted data. -/
def loadData (read : StorageRead) (s : Sys) : Sys :=
  setData s (loadPersistedData read)

/-- finishDrawing from design-tool.ts: the element the current drag creates.
`id` is the store.generateId() result (time- and randomness-based in the
source), passed explicitly here.  `dist` stands for
Math.sqrt(dx^2 + dy^2), the circle-radius computation; its value is
irrational in general and no claim depends on it, so it is a parameter.
The point and select tools create nothing in this function (the point tool
goes through createPoint on click). -/
def finishDrawing (dist : ℚ → ℚ → ℚ) (currentTool : ToolType) (id : String)
    (startX startY endX endY : ℚ) : Option GraphicElement :=
  match currentTool with
  | ToolType.line =>
    some { id := id, type := "line", x := startX, y := startY,
           x2 := some endX, y2 := some endY,
           style := some { stroke := some "#333", strokeWidth := some 2 } }
  | ToolType.circle =>
    some { id := id, type := "circle", x := startX, y := startY,
           radius := some (dist (endX - startX) (endY - startY)),
           style := some { stroke := some "#2196F3", strokeWidth := some 2,
                           fill := some "rgba(33, 150, 243, 0.3)" } }
  | ToolType.rectangle =>
    some { id := id, type := "rectangle", x := min startX endX, y := min startY endY,
           width := some |endX - startX|, height := some |endY - startY|,
           style := some { stroke := some "#FF9800", strokeWidth := some 2,
                           fill := some "rgba(255, 152, 0, 0.3)" } }
  | _ => none

/-- updateRectangleByHandle from design-tool.ts: the updates record a
corner-handle drag produces.  originalData is the element snapshot taken at
drag start (handleStartData), dragStart the mouse data-position at drag
start, and the current mouse position is dragStart + delta.  Each corner
case keeps the opposite corner fixed, sets x and y to the minimum of the
mouse and the fixed corner, takes absolute width/height, and the final
clamps raise a present width/height below 0.1 to 0.1.  For a rectangle
element width/height are always present; `getD 0` only totalises the
model.  An unknown handle type produces the empty updates record, exactly as
the source's switch leaves `updates = {}`. -/
def updateRectangleByHandle (originalData : GraphicElement) (dragStart : ℚ × ℚ)
    (handleType : String) (deltaX deltaY : ℚ) : ElementUpdates :=
  let currentMouseX := dragStart.1 + deltaX
  let currentMouseY := dragStart.2 + deltaY
  let ow := originalData.width.getD 0
  let oh := originalData.height.getD 0
  let u : ElementUpdates :=
    if handleType = "resize-tl" then
      { x := some (min currentMouseX (originalData.x + ow)),
        y := some (min currentMouseY originalData.y),
        width := some |originalData.x + ow - currentMouseX|,
        height := some |currentMouseY - originalData.y| }
    else if handleType = "resize-tr" then
      { x := some (min currentMouseX originalData.x),
        y := some (min currentMouseY originalData.y),
        width := some |currentMouseX - originalData.x|,
        height := some |currentMouseY - originalData.y| }
    else if handleType = "resize-bl" then
      { x := some (min currentMouseX (originalData.x + ow)),
        y := some (min currentMouseY (originalData.y + oh)),
        width := some |originalData.x + ow - currentMouseX|,
        height := some |originalData.y + oh - currentMouseY| }
    else if handleType = "resize-br" then
      { x := some (min currentMouseX originalData.x),
        y := some (min currentMouseY (originalData.y + oh)),
        width := some |currentMouseX - originalData.x|,
        height := some |originalData.y + oh - currentMouseY| }
    else {}
  { u with width := u.width.map (fun w => if w < 1 / 10 then 1 / 10 else w),
           height := u.height.map (fun h => if h < 1 / 10 then 1 / 10 else h) }

/-! Theorems. -/

/-- C1: for a container of width W > 40 and height H > 40, setupScales fixes
the vertical domain to [-10, 10], derives the horizontal domain as
[-xRange/2, xRange/2] with xRange = (W - 40) / baseUnitPixels and
baseUnitPixels = (H - 40) / 20 (20-pixel margins on every side), and both
scales map one data unit to the same number of pixels (the y scale's signed
pixels-per-unit is the negation of the x scale's because screen y grows
downward, so the spanned pixel count agrees: a 1:1 unit aspect ratio). -/
theorem setupScales_unit_aspect :
    ∀ (width height : ℚ), 40 < width → 40 < height →
      (setupScales width height).baseUnitPixels = (height - 40) / 20 ∧
      (setupScales width height).yScale.d0 = -10 ∧
      (setupScales width height).yScale.d1 = 10 ∧
      (setupScales width height).xScale.d0 = -((width - 40) / ((height - 40) / 20) / 2) ∧
      (setupScales width height).xScale.d1 = (width - 40) / ((height - 40) / 20) / 2 ∧
      (setupScales width height).xScale.pixelsPerUnit = (height - 40) / 20 ∧
      (setupScales width height).yScale.pixelsPerUnit = -((height - 40) / 20) := by
  intro w h hw hh
  have hA : w - 40 ≠ 0 := sub_ne_zero.mpr (ne_of_gt (by linarith))
  have hB : h - 40 ≠ 0 := sub_ne_zero.mpr (ne_of_gt (by linarith))
  have hB20 : (h - 40) / 20 ≠ 0 := div_ne_zero hB (by norm_num)
  have hw40 : w - 20 - 20 = w - 40 := by ring
  have hh40 : h - 20 - 20 = h - 40 := by ring
  refine ⟨?_, rfl, rfl, ?_, ?_, ?_, ?_⟩
  · simp only [setupScales, margin, hw40, hh40]
  · simp only [setupScales, margin, hw40, hh40]
    ring
  · simp only [setupScales, margin, hw40, hh40]
  · simp only [setupScales, margin, LinearScale.pixelsPerUnit, hw40, hh40]
    rw [show (w - 40) / ((h - 40) / 20) / 2 - -((w - 40) / ((h - 40) / 20)) / 2
        = (w - 40) / ((h - 40) / 20) by ring]
    rw [div_div_eq_mul_div, mul_comm, mul_div_assoc, div_self hA, mul_one]
  · simp only [setupScales, margin, LinearScale.pixelsPerUnit, hw40, hh40]
    rw [show (10 : ℚ) - -10 = 20 by norm_num]
    ring

/-- Witness for C1 at width 840, height 440. -/
theorem setupScales_unit_aspect_witness :
    (setupScales 840 440).baseUnitPixels = (440 - 40) / 20 ∧
    (setupScales 840 440).yScale.d0 = -10 ∧
    (setupScales 840 440).yScale.d1 = 10 ∧
    (setupScales 840 440).xScale.d0 = -((840 - 40) / ((440 - 40) / 20) / 2) ∧
    (setupScales 840 440).xScale.d1 = (840 - 40) / ((440 - 40) / 20) / 2 ∧
    (setupScales 840 440).xScale.pixelsPerUnit = (440 - 40) / 20 ∧
    (setupScales 840 440).yScale.pixelsPerUnit = -((440 - 40) / 20) :=
  setupScales_unit_aspect 840 440 (by norm_num) (by norm_num)

/-- C7: tick density adapts monotonically to zoom: for zoom scales
k1 <= k2 in [1/3, 3], the major and minor spacings at k2 are at most the
corresponding spacings at k1. -/
theorem calculateOptimalTickSpacing_antitone :
    ∀ k1 k2 : ℚ, 1 / 3 ≤ k1 → k1 ≤ k2 → k2 ≤ 3 →
      (calculateOptimalTickSpacing k2).major ≤ (calculateOptimalTickSpacing k1).major ∧
      (calculateOptimalTickSpacing k2).minor ≤ (calculateOptimalTickSpacing k1).minor := by
  intro k1 k2 h1 h12 h2
  unfold calculateOptimalTickSpacing
  split_ifs <;> first
    | (exfalso; linarith)
    | (constructor <;> norm_num)

/-- Witness for C7 at k1 = 1/2, k2 = 2. -/
theorem calculateOptimalTickSpacing_antitone_witness :
    (calculateOptimalTickSpacing 2).major ≤ (calculateOptimalTickSpacing (1 / 2)).major ∧
    (calculateOptimalTickSpacing 2).minor ≤ (calculateOptimalTickSpacing (1 / 2)).minor :=
  calculateOptimalTickSpacing_antitone (1 / 2) 2 (by norm_num) (by norm_num) (by norm_num)

/-- C5: local-storage access never propagates an exception (both functions
are total over every modelled outcome): loadPersistedData returns the default
data — visible axis, empty outline, empty userElements, empty selectedIds —
when the stored item is absent, unparsable or the access fails, substitutes
the per-field default for each missing field of a parsed object, and
saveToLocalStorage leaves the stored content unchanged on a write failure. -/
theorem loadPersistedData_defaults :
    loadPersistedData StorageRead.failure = defaultGraphicData ∧
    loadPersistedData StorageRead.absent = defaultGraphicData ∧
    defaultGraphicData.axis.visible = true ∧
    defaultGraphicData.initialOutline.digLines = [] ∧
    defaultGraphicData.initialOutline.blastingDesignLibraryParts = [] ∧
    defaultGraphicData.userElements = [] ∧
    defaultGraphicData.selectedIds = [] ∧
    (∀ p : ParsedData,
      loadPersistedData (StorageRead.parsed p) =
        { axis := p.axis.getD { visible := true, style := [] },
          initialOutline := p.initialOutline.getD
            { digLines := [], blastingDesignLibraryParts := [] },
          userElements := p.userElements.getD [],
          selectedIds := p.selectedIds.getD [] }) ∧
    (∀ (d : GraphicData) (st : Option GraphicData), saveToLocalStorage d false st = st) :=
  ⟨rfl, rfl, rfl, rfl, rfl, rfl, rfl, fun _ => rfl, fun _ _ => rfl⟩

/-- C6: every store action other than setInitialOutline and loadData leaves
data.initialOutline (the dig lines and blasting parts) unchanged: tool
switching, drawing-state changes, adding, updating, removing, selecting,
deselecting, clearing the selection, clearing user elements, and saving never
modify the imported outline reference data. -/
theorem actions_preserve_initialOutline :
    ∀ (s : Sys) (t : ToolType) (b : Bool) (e : GraphicElement) (i : String)
      (u : ElementUpdates),
      (setCurrentTool t s).store.data.initialOutline = s.store.data.initialOutline ∧
      (toggleTool t s).store.data.initialOutline = s.store.data.initialOutline ∧
      (setDrawing b s).store.data.initialOutline = s.store.data.initialOutline ∧
      (addElement e s).store.data.initialOutline = s.store.data.initialOutline ∧
      (removeElement i s).store.data.initialOutline = s.store.data.initialOutline ∧
      (updateElement i u s).store.data.initialOutline = s.store.data.initialOutline ∧
      (selectElement i s).store.data.initialOutline = s.store.data.initialOutline ∧
      (removeFromSelection i s).store.data.initialOutline = s.store.data.initialOutline ∧
      (clearSelection s).store.data.initialOutline = s.store.data.initialOutline ∧
      (clearUserElements s).store.data.initialOutline = s.store.data.initialOutline ∧
      (saveData s).store.data.initialOutline = s.store.data.initialOutline := by
  intro s t b e i u
  have hset : ∀ (t' : ToolType),
      (setCurrentTool t' s).store.data.initialOutline = s.store.data.initialOutline := by
    intro t'
    unfold setCurrentTool
    by_cases ht : t' = ToolType.select <;> simp [ht, setData]
  refine ⟨hset t, ?_, rfl, rfl, rfl, ?_, ?_, rfl, rfl, rfl, rfl⟩
  · unfold toggleTool
    by_cases hc : s.store.currentTool = t <;> simp [hc, hset]
  · unfold updateElement
    by_cases hc : s.store.data.userElements.any (fun el => el.id == i) = true <;>
      simp [hc, saveData, setData]
  · unfold selectElement
    split <;> rfl

/-- Initial system state: fresh store over the default data with nothing in
local storage yet. -/
def sysInit : Sys :=
  { store := { currentTool := ToolType.select, isDrawing := false, data := defaultGraphicData },
    storage := none }

/-- Counterexample to C4 as stated: calling updateElement for an id that no
element has saves nothing, so afterwards the content stored under
'design-tool-data' (still absent here) does not equal the store's current
drawing data. -/
theorem updateElement_missing_id_cex :
    ¬ ((updateElement "a" {} sysInit).storage
        = some (updateElement "a" {} sysInit).store.data) := by
  decide

/-- C4 (amended): after addElement, removeElement and clearUserElements, and
after updateElement whenever an element with the given id exists, the object
saved in local storage under 'design-tool-data' equals the store's current
drawing data (axis configuration, initial outline, drawn elements and
selection; the active tool is separate store state and is not part of the
persisted data).  updateElement on a missing id saves nothing. -/
theorem store_actions_persist :
    ∀ (s : Sys) (e : GraphicElement) (i : String) (u : ElementUpdates),
      (addElement e s).storage = some (addElement e s).store.data ∧
      (removeElement i s).storage = some (removeElement i s).store.data ∧
      (clearUserElements s).storage = some (clearUserElements s).store.data ∧
      (s.store.data.userElements.any (fun el => el.id == i) = true →
        (updateElement i u s).storage = some (updateElement i u s).store.data) := by
  intro s e i u
  refine ⟨rfl, rfl, rfl, fun hc => ?_⟩
  unfold updateElement
  simp [hc, saveData, saveToLocalStorage, setData]

/-- A user element and a store state holding it, for the C4 witness. -/
def wElem : GraphicElement := { id := "a", type := "point", x := 0, y := 0 }

def wSys : Sys :=
  { store := { currentTool := ToolType.select, isDrawing := false,
               data := { defaultGraphicData with userElements := [wElem] } },
    storage := none }

/-- Witness for C4: updateElement on an existing id persists the data. -/
theorem store_actions_persist_witness :
    (updateElement "a" {} wSys).storage = some (updateElement "a" {} wSys).store.data :=
  (store_actions_persist wSys wElem "a" {}).2.2.2 (by decide)

/-- Helper: after dropping the first entry that satisfies the test, no entry
satisfies it any more, provided no two entries can both satisfy it. -/
lemma spliceFirst_not_mem {α : Type} (p : α → Bool) :
    ∀ l : List α, l.Pairwise (fun a b => p a = true → p b = false) →
      ∀ x ∈ spliceFirst p l, p x = false := by
  intro l
  induction l with
  | nil =>
    intro _ x hx
    cases hx
  | cons a as ih =>
    intro hp x hx
    rw [List.pairwise_cons] at hp
    cases hpa : p a with
    | true =>
      simp only [spliceFirst, hpa, if_true] at hx
      exact hp.1 x hx hpa
    | false =>
      simp only [spliceFirst, hpa, Bool.false_eq_true, if_false] at hx
      rcases List.mem_cons.mp hx with rfl | hx'
      · exact hpa
      · exact ih hp.2 x hx'

/-- Helper: dropping the first entry that satisfies the test is the identity
when no entry satisfies it. -/
lemma spliceFirst_id {α : Type} (p : α → Bool) :
    ∀ l : List α, (∀ x ∈ l, p x = false) → spliceFirst p l = l := by
  intro l
  induction l with
  | nil => intro _; rfl
  | cons a as ih =>
    intro h
    have ha := h a (List.mem_cons_self a as)
    simp only [spliceFirst, ha, Bool.false_eq_true, if_false]
    rw [ih (fun x hx => h x (List.mem_cons_of_mem a hx))]

/-- Helper: entries with pairwise distinct keys admit at most one entry whose
key equals a given id. -/
lemma pairwise_beq_key {α : Type} (key : α → String) (i : String) {l : List α}
    (h : l.Pairwise (fun a b => key a ≠ key b)) :
    l.Pairwise (fun a b => (key a == i) = true → (key b == i) = false) := by
  refine h.imp ?_
  intro a b hne hai
  have ha : key a = i := by simpa using hai
  cases hbi : (key b == i) with
  | false => rfl
  | true =>
    have hb : key b = i := by simpa using hbi
    exact absurd (ha.trans hb.symm) hne

/-- Two distinct user elements that share the id "a", and a store state
holding both. -/
def dupA : GraphicElement := { id := "a", type := "point", x := 0, y := 0 }

def dupB : GraphicElement := { id := "a", type := "point", x := 1, y := 1 }

def dupSys : Sys :=
  { store := { currentTool := ToolType.select, isDrawing := false,
               data := { defaultGraphicData with userElements := [dupA, dupB] } },
    storage := none }

/-- Counterexample to C10 as stated: removeElement splices out only the first
element whose id matches, so with two elements sharing the id "a" an element
with that id remains in userElements afterwards. -/
theorem removeElement_duplicate_id_cex :
    (removeElement "a" dupSys).store.data.userElements.any (fun el => el.id == "a") = true := by
  decide

/-- C10 (amended): removeElement removes the first element with the given id
(so when the ids in userElements are pairwise distinct, no element with that
id remains), removes the id from the selection (completely when selectedIds
has no duplicates), and leaves userElements unchanged when no element has
the id (the id is still removed from the selection). -/
theorem removeElement_spec :
    ∀ (i : String) (s : Sys),
      ((s.store.data.userElements.map GraphicElement.id).Nodup →
        (removeElement i s).store.data.userElements.all (fun el => !(el.id == i)) = true) ∧
      (s.store.data.selectedIds.Nodup →
        i ∉ (removeElement i s).store.data.selectedIds) ∧
      (s.store.data.userElements.all (fun el => !(el.id == i)) = true →
        (removeElement i s).store.data.userElements = s.store.data.userElements) := by
  intro i s
  have hUE : (removeElement i s).store.data.userElements
      = spliceFirst (fun el => el.id == i) s.store.data.userElements := rfl
  have hSel : (removeElement i s).store.data.selectedIds
      = spliceFirst (fun x => x == i) s.store.data.selectedIds := rfl
  refine ⟨?_, ?_, ?_⟩
  · intro hn
    rw [hUE, List.all_eq_true]
    intro x hx
    have hn' : s.store.data.userElements.Pairwise (fun a b => a.id ≠ b.id) :=
      (List.pairwise_map).mp hn
    have hpx := spliceFirst_not_mem _ _ (pairwise_beq_key GraphicElement.id i hn') x hx
    simp [hpx]
  · intro hn
    rw [hSel]
    intro hmem
    have hn' : s.store.data.selectedIds.Pairwise (fun a b => a ≠ b) := hn
    have hpx := spliceFirst_not_mem _ _ (pairwise_beq_key (fun x => x) i hn') i hmem
    simp at hpx
  · intro hall
    rw [hUE]
    apply spliceFirst_id
    intro x hx
    simpa using (List.all_eq_true.mp hall) x hx

/-- A store state with one element of id "b" that is also selected, for the
C10 witness. -/
def wBElem : GraphicElement := { id := "b", type := "point", x := 0, y := 0 }

def wSelData : GraphicData :=
  { defaultGraphicData with userElements := [wBElem], selectedIds := ["b"] }

def wSelSys : Sys :=
  { store := { currentTool := ToolType.select, isDrawing := false, data := wSelData },
    storage := none }

/-- Witness for C10 at id "c" (no element has it): nothing with id "c"
remains, "c" is not selected, and userElements is unchanged. -/
theorem removeElement_spec_witness :
    (removeElement "c" wSelSys).store.data.userElements.all (fun el => !(el.id == "c")) = true ∧
    "c" ∉ (removeElement "c" wSelSys).store.data.selectedIds ∧
    (removeElement "c" wSelSys).store.data.userElements = wSelSys.store.data.userElements :=
  ⟨(removeElement_spec "c" wSelSys).1 (by decide),
   (removeElement_spec "c" wSelSys).2.1 (by decide),
   (removeElement_spec "c" wSelSys).2.2 (by decide)⟩

/-- Helper: extending the fold keeps every already-covered point covered. -/
lemma foldl_extendBounds_covers (ps : List (ℚ × ℚ)) :
    ∀ (b : Bounds) (q : ℚ × ℚ), coversPoint b q →
      coversPoint (ps.foldl extendBounds b) q := by
  induction ps with
  | nil => intro b q hq; exact hq
  | cons p ps ih =>
    intro b q hq
    rw [List.foldl_cons]
    exact ih _ q
      ⟨le_trans (min_le_left _ _) hq.1, le_trans hq.2.1 (le_max_left _ _),
       le_trans (min_le_left _ _) hq.2.2.1, le_trans hq.2.2.2 (le_max_left _ _)⟩

/-- Helper: the fold covers every point of the folded list. -/
lemma foldl_extendBounds_covers_mem (ps : List (ℚ × ℚ)) :
    ∀ (b : Bounds) (p : ℚ × ℚ), p ∈ ps → coversPoint (ps.foldl extendBounds b) p := by
  induction ps with
  | nil => intro b p hp; cases hp
  | cons a ps ih =>
    intro b p hp
    rw [List.foldl_cons]
    rcases List.mem_cons.mp hp with rfl | hp'
    · exact foldl_extendBounds_covers ps _ p
        ⟨min_le_right _ _, le_max_right _ _, min_le_right _ _, le_max_right _ _⟩
    · exact ih _ p hp'

/-- Helper: each side of the folded bounds is attained, either by the start
bounds or by some folded point. -/
lemma foldl_extendBounds_attained (ps : List (ℚ × ℚ)) :
    ∀ b : Bounds,
      ((ps.foldl extendBounds b).minX = b.minX ∨
        ∃ p ∈ ps, (ps.foldl extendBounds b).minX = p.1) ∧
      ((ps.foldl extendBounds b).maxX = b.maxX ∨
        ∃ p ∈ ps, (ps.foldl extendBounds b).maxX = p.1) ∧
      ((ps.foldl extendBounds b).minY = b.minY ∨
        ∃ p ∈ ps, (ps.foldl extendBounds b).minY = p.2) ∧
      ((ps.foldl extendBounds b).maxY = b.maxY ∨
        ∃ p ∈ ps, (ps.foldl extendBounds b).maxY = p.2) := by
  induction ps with
  | nil => intro b; exact ⟨Or.inl rfl, Or.inl rfl, Or.inl rfl, Or.inl rfl⟩
  | cons a ps ih =>
    intro b
    rw [List.foldl_cons]
    obtain ⟨h1, h2, h3, h4⟩ := ih (extendBounds b a)
    refine ⟨?_, ?_, ?_, ?_⟩
    · rcases h1 with h | ⟨p, hp, hpe⟩
      · rcases min_choice b.minX a.1 with hm | hm
        · exact Or.inl (h.trans hm)
        · exact Or.inr ⟨a, List.mem_cons_self a ps, h.trans hm⟩
      · exact Or.inr ⟨p, List.mem_cons_of_mem a hp, hpe⟩
    · rcases h2 with h | ⟨p, hp, hpe⟩
      · rcases max_choice b.maxX a.1 with hm | hm
        · exact Or.inl (h.trans hm)
        · exact Or.inr ⟨a, List.mem_cons_self a ps, h.trans hm⟩
      · exact Or.inr ⟨p, List.mem_cons_of_mem a hp, hpe⟩
    · rcases h3 with h | ⟨p, hp, hpe⟩
      · rcases min_choice b.minY a.2 with hm | hm
        · exact Or.inl (h.trans hm)
        · exact Or.inr ⟨a, List.mem_cons_self a ps, h.trans hm⟩
      · exact Or.inr ⟨p, List.mem_cons_of_mem a hp, hpe⟩
    · rcases h4 with h | ⟨p, hp, hpe⟩
      · rcases max_choice b.maxY a.2 with hm | hm
        · exact Or.inl (h.trans hm)
        · exact Or.inr ⟨a, List.mem_cons_self a ps, h.trans hm⟩
      · exact Or.inr ⟨p, List.mem_cons_of_mem a hp, hpe⟩

/-- C3 (amended): the bounding box computed for fit-to-view covers every
candidate point of the dig lines (every segment's start and end point and,
for arcs, the in-range extreme points at 0, 90, 180, 270 degrees) and each of
its four sides is attained by one of those points — but only the dig lines
enter the computation; the library blasting parts are ignored (see the
counterexample). -/
theorem calculateBounds_covers_digLines :
    ∀ (data : TestData) (b : Bounds), calculateBounds data = some b →
      (∀ p ∈ digPoints data.digLines, coversPoint b p) ∧
      (∃ p ∈ digPoints data.digLines, p.1 = b.minX) ∧
      (∃ p ∈ digPoints data.digLines, p.1 = b.maxX) ∧
      (∃ p ∈ digPoints data.digLines, p.2 = b.minY) ∧
      (∃ p ∈ digPoints data.digLines, p.2 = b.maxY) := by
  intro data b hcb
  unfold calculateBounds at hcb
  rcases hdl : digPoints data.digLines with _ | ⟨p, ps⟩
  · rw [hdl] at hcb
    simp [boundsOfPoints] at hcb
  · rw [hdl] at hcb
    simp only [boundsOfPoints, Option.some.injEq] at hcb
    subst hcb
    refine ⟨?_, ?_, ?_, ?_, ?_⟩
    · intro q hq
      rcases List.mem_cons.mp hq with rfl | hq'
      · exact foldl_extendBounds_covers ps _ q ⟨le_refl _, le_refl _, le_refl _, le_refl _⟩
      · exact foldl_extendBounds_covers_mem ps _ q hq'
    · rcases (foldl_extendBounds_attained ps ⟨p.1, p.1, p.2, p.2⟩).1 with h | ⟨q, hq, hqe⟩
      · exact ⟨p, List.mem_cons_self p ps, h.symm⟩
      · exact ⟨q, List.mem_cons_of_mem p hq, hqe.symm⟩
    · rcases (foldl_extendBounds_attained ps ⟨p.1, p.1, p.2, p.2⟩).2.1 with h | ⟨q, hq, hqe⟩
      · exact ⟨p, List.mem_cons_self p ps, h.symm⟩
      · exact ⟨q, List.mem_cons_of_mem p hq, hqe.symm⟩
    · rcases (foldl_extendBounds_attained ps ⟨p.1, p.1, p.2, p.2⟩).2.2.1 with h | ⟨q, hq, hqe⟩
      · exact ⟨p, List.mem_cons_self p ps, h.symm⟩
      · exact ⟨q, List.mem_cons_of_mem p hq, hqe.symm⟩
    · rcases (foldl_extendBounds_attained ps ⟨p.1, p.1, p.2, p.2⟩).2.2.2 with h | ⟨q, hq, hqe⟩
      · exact ⟨p, List.mem_cons_self p ps, h.symm⟩
      · exact ⟨q, List.mem_cons_of_mem p hq, hqe.symm⟩

/-- Outline used by the C3 counterexample: one dig line from (0,0) to (1,1)
and one blasting part whose segment runs from (5,5) to (6,6). -/
def cexOutline : TestData :=
  { digLines := [{ sx := 0, sy := 0, ex := 1, ey := 1 }],
    blastingDesignLibraryParts := [{ partName := "p", parts := [{ sx := 5, sy := 5, ex := 6, ey := 6 }] }] }

/-- Counterexample to C3 as stated: the computed bounding box is built from
the dig lines alone, so the blasting-part point (5,5) of the imported
outline is not covered. -/
theorem calculateBounds_ignores_blasting_parts_cex :
    calculateBounds cexOutline = some ⟨0, 1, 0, 1⟩ ∧
    ((5 : ℚ), (5 : ℚ)) ∈ outlinePoints cexOutline ∧
    ¬ coversPoint ⟨0, 1, 0, 1⟩ (5, 5) := by
  exact ⟨by decide, by decide, by decide⟩

/-- Outline used by the C2 and C3 witnesses: one dig line from (0,0) to
(2,4), bounding box ⟨0, 2, 0, 4⟩. -/
def fitData : TestData :=
  { digLines := [{ sx := 0, sy := 0, ex := 2, ey := 4 }],
    blastingDesignLibraryParts := [] }

/-- Witness for C3: the bounds of fitData cover the dig-line point (2,4). -/
theorem calculateBounds_covers_digLines_witness :
    coversPoint ⟨0, 2, 0, 4⟩ (2, 4) :=
  (calculateBounds_covers_digLines fitData ⟨0, 2, 0, 4⟩ (by decide)).1 (2, 4) (by decide)

/-- C2: when the bounding box of the data has positive width and height, the
initial transform fitToView caches and applies has scale factor equal to the
clamp into [1/3, 3] of ((2/3) * (H - 40)) / (boundsHeight * baseUnitPixels)
with baseUnitPixels = (H - 40) / 20; when the bounding-box width or height is
zero, fitToView changes nothing. -/
theorem fitToView_scale_clamped :
    ∀ (width height : ℚ) (data : TestData) (b : Bounds),
      calculateBounds data = some b →
      (0 < b.maxX - b.minX → 0 < b.maxY - b.minY →
        (fitToView width height data).map ZoomTransform.k =
          some (max (1 / 3) (min 3
            (2 / 3 * (height - 40) / ((b.maxY - b.minY) * ((height - 40) / 20)))))) ∧
      (b.maxX - b.minX = 0 ∨ b.maxY - b.minY = 0 → fitToView width height data = none) := by
  intro w h data b hcb
  constructor
  · intro hbw hbh
    simp only [fitToView, hcb]
    rw [if_neg (by push_neg; exact ⟨ne_of_gt hbw, ne_of_gt hbh⟩)]
    simp only [Option.map_some']
    congr 1
    simp only [ZoomTransform.translate, ZoomTransform.scale, zoomIdentity]
    rw [one_mul]
    congr 1
    congr 1
    simp only [setupScales, margin]
    ring
  · intro hz
    simp only [fitToView, hcb]
    rw [if_pos hz]

/-- Witness for C2 at width 840, height 440 and fitData: the raw scale is
10/3 and is clamped to 3. -/
theorem fitToView_scale_clamped_witness :
    (fitToView 840 440 fitData).map ZoomTransform.k =
      some (max (1 / 3) (min 3 (2 / 3 * (440 - 40) / ((4 - 0) * ((440 - 40) / 20))))) :=
  (fitToView_scale_clamped 840 440 fitData ⟨0, 2, 0, 4⟩ (by decide)).1
    (by norm_num) (by norm_num)

/-- Helper: the minimum-size clamp of updateRectangleByHandle yields at least
0.1. -/
lemma clamp_min_le (b w : ℚ) : b ≤ (if w < b then b else w) := by
  split
  · exact le_refl _
  · exact le_of_not_lt (by assumption)

/-- C9: rectangles are kept in normalized form.  finishDrawing creates the
rectangle with x = min(startX, endX), y = min(startY, endY) and non-negative
width |endX - startX| and height |endY - startY|; and every corner-handle
resize through updateRectangleByHandle produces width >= 0.1, height >= 0.1
and x, y equal to the minimum of the mouse position and the case's fixed
opposite corner, so (x, y) is again the rectangle's minimum corner. -/
theorem rectangle_normal_form :
    ∀ (dist : ℚ → ℚ → ℚ) (i : String) (sx sy ex ey : ℚ)
      (orig : GraphicElement) (ds : ℚ × ℚ) (ht : String) (dx dy : ℚ),
      (finishDrawing dist ToolType.rectangle i sx sy ex ey =
        some { id := i, type := "rectangle", x := min sx ex, y := min sy ey,
               width := some |ex - sx|, height := some |ey - sy|,
               style := some { stroke := some "#FF9800", strokeWidth := some 2,
                               fill := some "rgba(255, 152, 0, 0.3)" } }) ∧
      (0 ≤ |ex - sx| ∧ 0 ≤ |ey - sy|) ∧
      (ht = "resize-tl" ∨ ht = "resize-tr" ∨ ht = "resize-bl" ∨ ht = "resize-br" →
        (updateRectangleByHandle orig ds ht dx dy).width.isSome = true ∧
        1 / 10 ≤ (updateRectangleByHandle orig ds ht dx dy).width.getD 0 ∧
        (updateRectangleByHandle orig ds ht dx dy).height.isSome = true ∧
        1 / 10 ≤ (updateRectangleByHandle orig ds ht dx dy).height.getD 0 ∧
        (updateRectangleByHandle orig ds ht dx dy).x =
          some (min (ds.1 + dx)
            (if ht = "resize-tl" ∨ ht = "resize-bl"
             then orig.x + orig.width.getD 0 else orig.x)) ∧
        (updateRectangleByHandle orig ds ht dx dy).y =
          some (min (ds.2 + dy)
            (if ht = "resize-bl" ∨ ht = "resize-br"
             then orig.y + orig.height.getD 0 else orig.y))) := by
  intro dist i sx sy ex ey orig ds ht dx dy
  refine ⟨rfl, ⟨abs_nonneg _, abs_nonneg _⟩, ?_⟩
  intro hht
  rcases hht with rfl | rfl | rfl | rfl <;>
    simp [updateRectangleByHandle, clamp_min_le]

/-- Concrete stand-in for the circle-radius distance function (unused by the
rectangle cases). -/
def distZero : ℚ → ℚ → ℚ := fun _ _ => 0

/-- A rectangle element for the C9 witness. -/
def origW : GraphicElement :=
  { id := "r", type := "rectangle", x := 0, y := 0, width := some 4, height := some 3 }

/-- Witness for C9: the bottom-right handle dragged to (-6, -7) yields
clamped-normalized width and height. -/
theorem rectangle_normal_form_witness :
    (updateRectangleByHandle origW (4, 3) "resize-br" (-10) (-10)).width.isSome = true ∧
    1 / 10 ≤ (updateRectangleByHandle origW (4, 3) "resize-br" (-10) (-10)).width.getD 0 ∧
    (updateRectangleByHandle origW (4, 3) "resize-br" (-10) (-10)).height.isSome = true ∧
    1 / 10 ≤ (updateRectangleByHandle origW (4, 3) "resize-br" (-10) (-10)).height.getD 0 :=
  ⟨((rectangle_normal_form distZero "r" 0 0 3 2 origW (4, 3) "resize-br" (-10) (-10)).2.2
      (Or.inr (Or.inr (Or.inr rfl)))).1,
   ((rectangle_normal_form distZero "r" 0 0 3 2 origW (4, 3) "resize-br" (-10) (-10)).2.2
      (Or.inr (Or.inr (Or.inr rfl)))).2.1,
   ((rectangle_normal_form distZero "r" 0 0 3 2 origW (4, 3) "resize-br" (-10) (-10)).2.2
      (Or.inr (Or.inr (Or.inr rfl)))).2.2.1,
   ((rectangle_normal_form distZero "r" 0 0 3 2 origW (4, 3) "resize-br" (-10) (-10)).2.2
      (Or.inr (Or.inr (Or.inr rfl)))).2.2.2.1⟩

/-- Helper: the two-decimal rounding is monotone. -/
lemma roundTo2_mono {a b : ℚ} (hab : a ≤ b) : roundTo2 a ≤ roundTo2 b := by
  unfold roundTo2 jsRound
  have h1 : ⌊a * 100 + 1 / 2⌋ ≤ ⌊b * 100 + 1 / 2⌋ := Int.floor_mono (by linarith)
  have h2 : ((⌊a * 100 + 1 / 2⌋ : ℤ) : ℚ) ≤ ((⌊b * 100 + 1 / 2⌋ : ℤ) : ℚ) := by
    exact_mod_cast h1
  exact (div_le_div_iff_of_pos_right (by norm_num : (0 : ℚ) < 100)).mpr h2

/-- C8 (amended): for min <= max and step > 0, generateTicks returns one
entry per multiple of step lying within [min, max], in increasing order of
the multiples, each entry being the multiple rounded to two decimal places
(JavaScript Math.round(i * 100) / 100); the underlying multiples are
strictly increasing and the returned list is therefore non-decreasing.  (It
is not strictly increasing in general: for steps below one hundredth,
distinct multiples can round to equal entries — see the counterexample.) -/
theorem generateTicks_spec :
    ∀ lo hi step : ℚ, lo ≤ hi → 0 < step →
      generateTicks lo hi step = (specMultiples lo hi step).map roundTo2 ∧
      (∀ q : ℚ, q ∈ specMultiples lo hi step ↔
        ∃ k : ℤ, q = (k : ℚ) * step ∧ lo ≤ q ∧ q ≤ hi) ∧
      List.Sorted (· < ·) (specMultiples lo hi step) ∧
      List.Sorted (· ≤ ·) (generateTicks lo hi step) := by
  intro lo hi step _ hstep
  have hs0 : step ≠ 0 := ne_of_gt hstep
  have hcount :
      (if ((⌈lo / step⌉ : ℚ) * step) ≤ ((⌊hi / step⌋ : ℚ) * step)
       then (⌊(((⌊hi / step⌋ : ℚ) * step) - ((⌈lo / step⌉ : ℚ) * step)) / step⌋ + 1).toNat
       else 0)
      = (⌊hi / step⌋ - ⌈lo / step⌉ + 1).toNat := by
    by_cases hcf : ⌈lo / step⌉ ≤ ⌊hi / step⌋
    · rw [if_pos (mul_le_mul_of_nonneg_right (by exact_mod_cast hcf) (le_of_lt hstep))]
      congr 1
      rw [show ((⌊hi / step⌋ : ℚ) * step) - ((⌈lo / step⌉ : ℚ) * step)
            = ((⌊hi / step⌋ - ⌈lo / step⌉ : ℤ) : ℚ) * step by push_cast; ring]
      rw [mul_div_cancel_right₀ _ hs0, Int.floor_intCast]
    · rw [if_neg ?hneg]
      case hneg =>
        intro hle
        exact hcf (by exact_mod_cast le_of_mul_le_mul_right hle hstep)
      rw [Int.toNat_of_nonpos (by omega : ⌊hi / step⌋ - ⌈lo / step⌉ + 1 ≤ 0)]
  have key : generateTicks lo hi step
      = (List.range (⌊hi / step⌋ - ⌈lo / step⌉ + 1).toNat).map
          (fun n : ℕ => roundTo2 (((⌈lo / step⌉ + (n : ℤ) : ℤ) : ℚ) * step)) := by
    simp only [generateTicks]
    rw [hcount]
    apply List.map_congr_left
    intro n _
    congr 1
    push_cast
    ring
  have part1 : generateTicks lo hi step = (specMultiples lo hi step).map roundTo2 := by
    rw [key]
    unfold specMultiples
    rw [List.map_map]
    rfl
  have part3 : List.Sorted (· < ·) (specMultiples lo hi step) := by
    unfold specMultiples
    refine List.Pairwise.map _ ?_ (List.pairwise_lt_range _)
    intro m n hmn
    have hmn' : (⌈lo / step⌉ + (m : ℤ)) < ⌈lo / step⌉ + (n : ℤ) := by omega
    exact mul_lt_mul_of_pos_right (by exact_mod_cast hmn') hstep
  refine ⟨part1, ?_, part3, ?_⟩
  · intro q
    unfold specMultiples
    simp only [List.mem_map, List.mem_range]
    constructor
    · rintro ⟨n, hn, rfl⟩
      refine ⟨⌈lo / step⌉ + (n : ℤ), rfl, ?_, ?_⟩
      · have hc1 : lo / step ≤ (⌈lo / step⌉ : ℚ) := Int.le_ceil _
        have hc2 : ((⌈lo / step⌉ : ℤ) : ℚ) ≤ ((⌈lo / step⌉ + (n : ℤ) : ℤ) : ℚ) := by
          exact_mod_cast (by omega : (⌈lo / step⌉ : ℤ) ≤ ⌈lo / step⌉ + (n : ℤ))
        calc lo = lo / step * step := (div_mul_cancel₀ lo hs0).symm
          _ ≤ _ := mul_le_mul_of_nonneg_right (hc1.trans hc2) (le_of_lt hstep)
      · have hn' : (n : ℤ) ≤ ⌊hi / step⌋ - ⌈lo / step⌉ := by omega
        have h3 : ((⌈lo / step⌉ + (n : ℤ) : ℤ) : ℚ) ≤ ((⌊hi / step⌋ : ℤ) : ℚ) := by
          exact_mod_cast (by omega : ⌈lo / step⌉ + (n : ℤ) ≤ ⌊hi / step⌋)
        have h4 : ((⌊hi / step⌋ : ℤ) : ℚ) ≤ hi / step := Int.floor_le _
        calc ((⌈lo / step⌉ + (n : ℤ) : ℤ) : ℚ) * step
            ≤ hi / step * step := mul_le_mul_of_nonneg_right (h3.trans h4) (le_of_lt hstep)
          _ = hi := div_mul_cancel₀ hi hs0
    · rintro ⟨k, rfl, hlo, hhi⟩
      have hck : ⌈lo / step⌉ ≤ k := Int.ceil_le.mpr ((div_le_iff₀ hstep).mpr hlo)
      have hkf : k ≤ ⌊hi / step⌋ := Int.le_floor.mpr ((le_div_iff₀ hstep).mpr hhi)
      refine ⟨(k - ⌈lo / step⌉).toNat, by omega, ?_⟩
      have hkk : ⌈lo / step⌉ + ((k - ⌈lo / step⌉).toNat : ℤ) = k := by omega
      rw [hkk]
  · rw [part1]
    exact List.Pairwise.map roundTo2
      (fun a b hab => roundTo2_mono (le_of_lt hab)) part3

/-- Counterexample to C8 as stated: at step 0.001 the three multiples 0,
0.001, 0.002 of [0, 0.002] all round to 0 at two decimals, so the returned
list [0, 0, 0] is not strictly increasing. -/
theorem generateTicks_rounding_cex :
    generateTicks 0 (1 / 500) (1 / 1000) = [0, 0, 0] ∧
    ¬ List.Sorted (· < ·) (generateTicks 0 (1 / 500) (1 / 1000)) := by
  have h0 : generateTicks 0 (1 / 500) (1 / 1000) = [0, 0, 0] := by
    unfold generateTicks
    norm_num
    rw [show ((3 : ℤ).toNat) = 3 from rfl, show List.range 3 = [0, 1, 2] from rfl]
    simp only [List.map_cons, List.map_nil]
    norm_num [roundTo2, jsRound]
  refine ⟨h0, ?_⟩
  rw [h0]
  intro hs
  rw [List.sorted_cons] at hs
  exact absurd (hs.1 0 (by simp)) (lt_irrefl 0)

/-- Witness for C8 at lo = 0, hi = 5, step = 2: the returned ticks are the
rounded multiples 0, 2, 4. -/
theorem generateTicks_spec_witness :
    generateTicks 0 5 2 = (specMultiples 0 5 2).map roundTo2 :=
  (generateTicks_spec 0 5 2 (by norm_num) (by norm_num)).1

end DesignTool
